import Mathlib

set_option maxRecDepth 8192
set_option linter.unnecessarySeqFocus false

/-! Shallow embedding of the ApexAI-Core recursive generate–execute–review–prune
subsystem: the code extractor, static validator, sandboxed executor, dependency
resolver, review gate and cycle controller found in `god_code_agent_ollama.py`,
`apexai_core/agents/god_code_agent.py` and `apexai_core/security.py`.
Python strings are modelled as lists of characters; the sources only ever build
and inspect ASCII text, and all string primitives below implement the ASCII
fragment of the corresponding Python `str` methods. -/

namespace ApexAI

/-- Python strings, modelled as lists of characters. -/
abbrev PyStr := List Char

/-- Character list of a Lean string literal. -/
def lit (s : String) : PyStr := s.data

/-- Characters removed by Python `str.strip()` (the ASCII part of `str.isspace`). -/
def isPySpace (c : Char) : Bool :=
  c = ' ' || c = '\t' || c = '\n' || c = '\r' || c = '\x0b' || c = '\x0c'

/-- Python `str.strip()`. -/
def pyStrip (l : PyStr) : PyStr :=
  ((l.dropWhile isPySpace).reverse.dropWhile isPySpace).reverse

/-- Python `str.lower()` on ASCII text. -/
def pyLower (l : PyStr) : PyStr := l.map Char.toLower

/-- Python's substring test `pat in l`. -/
def containsSub (pat : PyStr) : PyStr → Bool
  | [] => pat.isEmpty
  | c :: rest => pat.isPrefixOf (c :: rest) || containsSub pat rest

/-- Line-break characters recognised by Python `str.splitlines` (the ASCII set
plus NEL, LINE SEPARATOR and PARAGRAPH SEPARATOR). -/
def isLineBreak (c : Char) : Bool :=
  c = '\n' || c = '\r' || c = '\x0b' || c = '\x0c' ||
  c = '\x1c' || c = '\x1d' || c = '\x1e' ||
  c = Char.ofNat 133 || c = Char.ofNat 8232 || c = Char.ofNat 8233

/-- Worker for `pySplitlines`: `cur` is the reversed current line. A `"\r\n"`
pair counts as a single break, and a trailing break does not open a final
empty line, exactly as in Python. -/
def splitlinesGo (cur : PyStr) : PyStr → List PyStr
  | [] => if cur.isEmpty then [] else [cur.reverse]
  | c :: rest =>
    if c = '\r' then
      match rest with
      | '\n' :: rest2 => cur.reverse :: splitlinesGo [] rest2
      | [] => [cur.reverse]
      | c2 :: rest2 => cur.reverse :: splitlinesGo [] (c2 :: rest2)
    else if isLineBreak c then cur.reverse :: splitlinesGo [] rest
    else splitlinesGo (c :: cur) rest

/-- Python `str.splitlines()`. -/
def pySplitlines (l : PyStr) : List PyStr := splitlinesGo [] l

/-- Python `str.isdigit()` on ASCII text. -/
def pyIsdigit (l : PyStr) : Bool := !l.isEmpty && l.all Char.isDigit

/-- Python `str.startswith(tuple_of_prefixes)`. -/
def startsWithAny (l : PyStr) (ps : List PyStr) : Bool :=
  ps.any (fun p => p.isPrefixOf l)

/-- Python `str.replace(pat, rep)` for non-empty `pat`, written with explicit
fuel so that it is structurally recursive; every step consumes at least one
character, so `fuel = l.length` (as supplied by `pyReplace`) is enough to scan
the whole string. -/
def pyReplaceGo (pat rep : PyStr) : Nat → PyStr → PyStr
  | 0, l => l
  | _ + 1, [] => []
  | fuel + 1, c :: rest =>
    if pat.isPrefixOf (c :: rest) && !pat.isEmpty then
      rep ++ pyReplaceGo pat rep fuel (List.drop (pat.length - 1) rest)
    else c :: pyReplaceGo pat rep fuel rest

/-- Python `str.replace(pat, rep)` (all occurrences, scanning left to right). -/
def pyReplace (pat rep l : PyStr) : PyStr := pyReplaceGo pat rep l.length l

/-- Python `sep.join(pieces)`. -/
def pyJoin (sep : PyStr) : List PyStr → PyStr
  | [] => []
  | [x] => x
  | x :: y :: rest => x ++ sep ++ pyJoin sep (y :: rest)

/-! ## CodeExtractor: `_clean_generated_code`
Identical in `god_code_agent_ollama.py` (lines 127–171) and
`apexai_core/agents/god_code_agent.py` (lines 154–198). -/

/-- The `bad_token` list removed up front by `_clean_generated_code`. -/
def bad_tokens : List PyStr :=
  [lit "```python", lit "```", lit "[PYTHON]", lit "[/PYTHON]", lit "..."]

/-- The `for bad_token in [...]: raw_code = raw_code.replace(bad_token, "")` loop. -/
def strip_bad_tokens (l : PyStr) : PyStr :=
  bad_tokens.foldl (fun acc t => pyReplace t [] acc) l

/-- The `allowed_starts` tuple of `_clean_generated_code`, in source order.
Note that its final element is the empty string. -/
def allowed_starts : List PyStr :=
  [lit "import ", lit "from ", lit "def ", lit "class ", lit "@", lit "print(",
   lit "if ", lit "for ", lit "while ", lit "with ", lit "try:", lit "except ",
   lit "return ", lit "async ", lit "#", lit "else:", lit "elif ", lit "app.",
   lit "output", lit "result", lit "input", lit "pass", lit "raise ",
   lit "yield ", lit "global ", lit "nonlocal ", lit "assert ", lit "lambda ",
   lit "open(", lit "subprocess", lit "BaseModel", lit "os.", lit "sys.",
   lit "main", lit ""]

/-- The `banned_phrases` list of `_clean_generated_code`, in source order. -/
def banned_phrases : List PyStr :=
  [lit "This script", lit "To test", lit "curl", lit "python ", lit "```",
   lit "Note that", lit "also note", lit "you can use", lit "The `/status`",
   lit "The `/execute`", lit "If you", lit "To run", lit "For example",
   lit "Here is", lit "To start", lit "After running"]

/-- The fixed fallback script substituted when the filtered output is empty or
shorter than 10 characters. -/
def fallback_script : PyStr := lit "print('Hello world from GODCodeAgent')"

/-- The body of the line filter of `_clean_generated_code`: the line is kept
when its stripped form starts with an element of `allowed_starts`, or is empty,
or begins with a quote character, or is purely numeric — and additionally no
banned phrase occurs in it case-insensitively (the nested `if`). -/
def line_is_selected (line : PyStr) : Bool :=
  let ls := pyStrip line
  (startsWithAny ls allowed_starts || ls.isEmpty
      || (match ls with | [] => false | c :: _ => c = '"' || c = '\'')
      || pyIsdigit ls)
    && !(banned_phrases.any fun bp => containsSub (pyLower bp) (pyLower ls))

/-- `_clean_generated_code(raw_code)`: remove the bad tokens, strip, keep the
selected lines, join them with newlines and strip again; fall back to
`fallback_script` when the result is empty or shorter than 10 characters. -/
def clean_generated_code (raw : PyStr) : PyStr :=
  let stripped := pyStrip (strip_bad_tokens raw)
  let kept := (pySplitlines stripped).filter line_is_selected
  let code := pyStrip (pyJoin (lit "\n") kept)
  if code.isEmpty || code.length < 10 then fallback_script else code

/-! ## ReviewGate and FastAPI detection -/

/-- `operator_review(code, filename)`: passes iff the code contains one of the
four review keywords (the filename argument is only used for logging). -/
def operator_review (code : PyStr) : Bool :=
  [lit "def ", lit "class ", lit "print(", lit "FastAPI"].any
    (fun w => containsSub w code)

/-- `should_run_with_uvicorn(code, file_path)`: both a framework mention and
the instantiation `app = FastAPI()` must occur in the code. -/
def should_run_with_uvicorn (code : PyStr) : Bool :=
  (containsSub (lit "FastAPI") code || containsSub (lit "uvicorn") code)
    && containsSub (lit "app = FastAPI()") code

/-! ## Model generation: `ollama_generate`
The HTTP request to the Ollama generate endpoint is abstracted by a
`GenOutcome` oracle describing how the request went. -/

/-- Outcome of the `requests.post` call and response decoding inside
`ollama_generate`: a successful response carrying the text of its `response`
field, or one of the three failure classes distinguished by the handlers. -/
inductive GenOutcome where
  | ok (raw : PyStr)
  | transportError
  | malformedResponse
  | unexpectedError
deriving DecidableEq

/-- Exceptions raised by the packaged `ollama_generate`
(`apexai_core/agents/god_code_agent.py`, lines 99–152). -/
inductive GenError where
  | ollamaAPIError
  | codeGenerationError
deriving DecidableEq

/-- Packaged `ollama_generate`: request failures and malformed responses are
re-raised as `OllamaAPIError`, unexpected exceptions as `CodeGenerationError`;
a successful response is cleaned and returned. -/
def ollama_generate_core : GenOutcome → Except GenError PyStr
  | .ok raw => .ok (clean_generated_code raw)
  | .transportError => .error .ollamaAPIError
  | .malformedResponse => .error .ollamaAPIError
  | .unexpectedError => .error .codeGenerationError

/-- Legacy `ollama_generate` (`god_code_agent_ollama.py`, lines 72–125): every
failure is swallowed by a handler that returns a fixed placeholder script, so
this function never raises. -/
def ollama_generate_legacy : GenOutcome → PyStr
  | .ok raw => clean_generated_code raw
  | .transportError => lit "print('Hello world from GODCodeAgent - API Error')"
  | .malformedResponse => lit "print('Hello world from GODCodeAgent - Invalid Response')"
  | .unexpectedError => lit "print('Hello world from GODCodeAgent - Unexpected Error')"

/-! ## DependencyResolver: `auto_install_module` -/

/-- Python `\w` on ASCII text (the character class inside the module-name
pattern; the extra `_` of the source's `[\w_]+` is redundant). -/
def isWordChar (c : Char) : Bool := c.isAlphanum || c = '_'

/-- Try to match the regex `No module named '([\w_]+)'` at the head of `l`;
on success return the captured name and the remainder after the match. -/
def matchAt (l : PyStr) : Option (PyStr × PyStr) :=
  if (lit "No module named '").isPrefixOf l then
    let after := List.drop 17 l
    let word := after.takeWhile isWordChar
    match List.drop word.length after with
    | '\'' :: rest => if word.isEmpty then none else some (word, rest)
    | _ => none
  else none

/-- `re.findall(r"No module named ...", text)`: scan left to right, advancing
one character after a failed position and past the whole match after a
successful one.  Each step consumes at least one character, so the fuel
`l.length` supplied by `findModuleMatches` is enough for the whole scan. -/
def findAllGo : Nat → PyStr → List PyStr
  | 0, _ => []
  | _ + 1, [] => []
  | fuel + 1, c :: cs =>
    match matchAt (c :: cs) with
    | some (word, rest) => word :: findAllGo fuel rest
    | none => findAllGo fuel cs

/-- The module names extracted by `auto_install_module` from the failure text. -/
def findModuleMatches (l : PyStr) : List PyStr := findAllGo l.length l

/-- One run of the `for module in matches:` loop of `auto_install_module`:
`attempts` records every `pip install` subprocess invocation (one per matched
name, in order) and `installed` the names whose subprocess succeeded. -/
structure InstallRun where
  attempts : List PyStr
  installed : List PyStr
deriving DecidableEq

/-- The installation loop, over an oracle `pipOk` telling which
`pip install <name>` subprocesses exit successfully.  A failed installation is
logged and skipped; the loop continues with the remaining names. -/
def install_loop (pipOk : PyStr → Bool) : List PyStr → InstallRun
  | [] => ⟨[], []⟩
  | m :: ms =>
    let r := install_loop pipOk ms
    ⟨m :: r.attempts, if pipOk m then m :: r.installed else r.installed⟩

/-- `auto_install_module(error_output)`: extract the names and run the
installation loop.  The packaged version returns `installed`; the legacy
version runs the same loop but discards the list. -/
def auto_install_module (pipOk : PyStr → Bool) (error_output : PyStr) : InstallRun :=
  install_loop pipOk (findModuleMatches error_output)

/-! ## StaticValidator: `CodeSandbox.validate_code` and `execute_code`
(`apexai_core/security.py`, lines 75–179).  The call to `ast.parse` is
abstracted by a `ParseResult` oracle; the syntax tree itself is modelled by
the `Ast` type, which distinguishes exactly the node shapes the validator
inspects and keeps every other node shape as `Other` with its children. -/

/-- A Python abstract syntax tree, as seen by the validator.  `Call` keeps the
positional arguments and the keyword-argument value expressions (keyword names
are never inspected by the validator); node shapes the walker does not inspect
are collapsed to `Other` with their child nodes. -/
inductive Ast where
  | Module (body : List Ast)
  | Import (names : List PyStr)
  | ImportFrom (module : Option PyStr)
  | Call (func : Ast) (args : List Ast) (keywords : List Ast)
  | Attribute (value : Ast) (attr : PyStr)
  | Name (id : PyStr)
  | StrLit (s : PyStr)
  | Other (children : List Ast)

/-- The child nodes `ast.walk` pushes for each visited node. -/
def astChildren : Ast → List Ast
  | .Module body => body
  | .Import _ => []
  | .ImportFrom _ => []
  | .Call f args kws => f :: (args ++ kws)
  | .Attribute v _ => [v]
  | .Name _ => []
  | .StrLit _ => []
  | .Other cs => cs

mutual

/-- The number of nodes of a tree (each node of a `List` field counted through
`astCountList`); used as fuel for the `ast.walk` worklist, which visits every
node exactly once. -/
def astCount : Ast → Nat
  | .Module body => 1 + astCountList body
  | .Import _ => 1
  | .ImportFrom _ => 1
  | .Call f args kws => 1 + astCount f + astCountList args + astCountList kws
  | .Attribute v _ => 1 + astCount v
  | .Name _ => 1
  | .StrLit _ => 1
  | .Other cs => 1 + astCountList cs

/-- Total node count of a list of trees. -/
def astCountList : List Ast → Nat
  | [] => 0
  | t :: ts => astCount t + astCountList ts

end

/-- Python `name.split(".")[0]`. -/
def dotHead (l : PyStr) : PyStr := l.takeWhile (fun c => c ≠ '.')

/-- The violations contributed by one visited node: the `if/elif` chain inside
the `ast.walk` loop of `validate_code` (security.py lines 92–129).  Because
the branch `elif isinstance(node, ast.Call)` captures every `Call` node, the
two later `elif isinstance(node, ast.Call) and ...` branches — the
`__import__` check and the `open(..., mode)` file-write check — are
unreachable, so a `Call` node can only ever contribute an `exec`/`eval`
violation. -/
def node_violations (allowed : List PyStr) : Ast → List PyStr
  | .Import names =>
    names.filterMap (fun n =>
      if dotHead n ∈ allowed then none
      else some (lit "Disallowed import: " ++ dotHead n))
  | .ImportFrom m =>
    let top := match m with | some n => dotHead n | none => []
    if top ∈ allowed then [] else [lit "Disallowed import from: " ++ top]
  | .Call f _ _ =>
    match f with
    | .Name id =>
      if id = lit "exec" || id = lit "eval" then
        [lit "Disallowed function call: " ++ id]
      else []
    | _ => []
  | .Attribute v attr =>
    match v with
    | .Name id =>
      if id = lit "os" &&
          (attr = lit "system" || attr = lit "popen" || attr = lit "spawn"
            || attr = lit "exec") then
        [lit "Disallowed os." ++ attr ++ lit " call"]
      else if id = lit "subprocess" then
        [lit "Disallowed subprocess." ++ attr ++ lit " call"]
      else []
    | _ => []
  | _ => []

/-- The `ast.walk` traversal: a FIFO worklist, visiting a node and then
queueing its children, collecting each visited node's violations in visit
order.  One fuel unit is spent per visited node, every node of the original
tree is popped exactly once, so the fuel `astCount tree + 1` supplied by
`collect_violations` covers the whole walk (`walkGo_fuel_sufficient` below
proves that any fuel of at least `astCountList` of the worklist gives the
same result). -/
def walkGo (allowed : List PyStr) : Nat → List Ast → List PyStr
  | 0, _ => []
  | _ + 1, [] => []
  | fuel + 1, t :: rest =>
    node_violations allowed t ++ walkGo allowed fuel (rest ++ astChildren t)

/-- The full `for node in ast.walk(tree):` loop of `validate_code`. -/
def collect_violations (allowed : List PyStr) (tree : Ast) : List PyStr :=
  walkGo allowed (astCount tree + 1) [tree]

/-- The sandbox configuration fields read by the modelled methods. -/
structure CodeSandbox where
  allowed_modules : List PyStr
  max_execution_time : Nat

/-- What `ast.parse` did on the submitted source: produced a tree, or raised a
`SyntaxError` whose rendering is `msg` — the failure mode the source's
`except SyntaxError` handler converts into a violation. -/
inductive ParseResult where
  | parsed (tree : Ast)
  | syntaxError (msg : PyStr)

/-- `CodeSandbox.validate_code`: a parse failure is recorded as the single
violation `"Syntax error: ..."`, not propagated; otherwise the tree is walked.
The embedding is a total function, mirroring that the source never raises. -/
def validate_code (sb : CodeSandbox) (p : ParseResult) : List PyStr :=
  match p with
  | .syntaxError msg => [lit "Syntax error: " ++ msg]
  | .parsed tree => collect_violations sb.allowed_modules tree

/-- What the execution subprocess did in `execute_code`: exited with a return
code and captured streams, hit the timeout, or made `subprocess.run` raise
some other exception rendering as `msg`. -/
inductive ProcResult where
  | exited (returncode : Int) (stdout stderr : PyStr)
  | timedOut
  | raised (msg : PyStr)

/-- `", ".join(violations)` behind the fixed prefix of `execute_code`. -/
def violations_message (vs : List PyStr) : PyStr :=
  lit "Security violations detected: " ++ pyJoin (lit ", ") vs

/-- `CodeSandbox.execute_code`: validate first and short-circuit on any
violation before a process is spawned; otherwise classify the subprocess
outcome — exit 0 is success with stdout, non-zero exit is failure with
stderr, a timeout is failure with the fixed timeout message, and any other
exception is failure with an `Execution error:` message. -/
def execute_code (sb : CodeSandbox) (p : ParseResult) (proc : ProcResult) :
    Bool × PyStr :=
  let violations := validate_code sb p
  if !violations.isEmpty then (false, violations_message violations)
  else
    match proc with
    | .exited rc out err => if rc = 0 then (true, out) else (false, err)
    | .timedOut =>
      (false, lit "Execution timed out after "
        ++ lit (toString sb.max_execution_time) ++ lit " seconds")
    | .raised msg => (false, lit "Execution error: " ++ msg)

/-! ## Executor: `_execute_regular_python`, `_execute_with_uvicorn` and
`write_and_execute` of the agents.  The subprocess machinery is abstracted by
an oracle `attempts : Nat → ExecAttempt`: the two textual invocation sites in
`write_and_execute` read `attempts 0` (first run) and `attempts 1` (retry). -/

/-- What one `subprocess.run` invocation of the artifact did: completed with
exit code 0 (any non-zero exit makes `check=True` raise), raised
`subprocess.CalledProcessError` (carrying the captured stderr and the
exception's `str` rendering), raised `subprocess.TimeoutExpired` (with its
`str` rendering), or raised some other exception rendering as `excStr`. -/
inductive ExecAttempt where
  | completed (stdout : PyStr)
  | calledProcessError (stderr excStr : PyStr)
  | timeoutExpired (excStr : PyStr)
  | otherError (excStr : PyStr)

/-- Packaged `_execute_regular_python` (god_code_agent.py lines 319–349): a
completed run returns `(True, stdout)`; every failure is re-raised as a
`CodeExecutionError` whose message is modelled by `.error msg`. -/
def execute_regular_python_core (file_path : PyStr) :
    ExecAttempt → Except PyStr (Bool × PyStr)
  | .completed out => .ok (true, out)
  | .calledProcessError stderr _ =>
    .error (lit "Python execution failed: " ++ stderr)
  | .timeoutExpired _ =>
    .error (lit "Python execution timed out for " ++ file_path)
  | .otherError m => .error (lit "Unexpected error executing Python: " ++ m)

/-- Packaged `_execute_with_uvicorn` (god_code_agent.py lines 281–317): a
timeout means the server is still up and counts as success with a fixed
message; failures are re-raised as `CodeExecutionError`. -/
def execute_with_uvicorn_core : ExecAttempt → Except PyStr (Bool × PyStr)
  | .completed out => .ok (true, out)
  | .timeoutExpired _ =>
    .ok (true, lit "Uvicorn server running—manual test at http://localhost:8000")
  | .calledProcessError stderr _ =>
    .error (lit "Uvicorn execution failed: " ++ stderr)
  | .otherError m => .error (lit "Unexpected error running uvicorn: " ++ m)

/-- One execution of the artifact in the mode chosen by
`should_run_with_uvicorn` (packaged version). -/
def run_mode_core (code file_path : PyStr) (a : ExecAttempt) :
    Except PyStr (Bool × PyStr) :=
  if should_run_with_uvicorn code then execute_with_uvicorn_core a
  else execute_regular_python_core file_path a

/-- The outside world one `write_and_execute` call interacts with: whether the
artifact write succeeds (with the `IOError` rendering when it does not), what
each subprocess invocation does, and which pip installations succeed. -/
structure ExecEnv where
  writeOk : Bool
  writeErrMsg : PyStr
  attempts : Nat → ExecAttempt
  pipOk : PyStr → Bool

/-- Packaged `write_and_execute` (god_code_agent.py lines 351–400): write the
file (an `IOError` is a terminal failure for the call), run once; on a
`CodeExecutionError` whose message mentions `ModuleNotFoundError`, call
`auto_install_module` and — only if it installed at least one module — re-run
exactly once and return that second outcome (a failing retry returns
`(False, str(retry_error))`); with nothing installed, or without the marker,
return the original failure message. -/
def write_and_execute_core (env : ExecEnv) (code file_path : PyStr) :
    Bool × PyStr :=
  if !env.writeOk then (false, lit "File write error: " ++ env.writeErrMsg)
  else
    match run_mode_core code file_path (env.attempts 0) with
    | .ok res => res
    | .error msg =>
      if containsSub (lit "ModuleNotFoundError") msg then
        let installed := (auto_install_module env.pipOk msg).installed
        if !installed.isEmpty then
          match run_mode_core code file_path (env.attempts 1) with
          | .ok res => res
          | .error m2 => (false, m2)
        else (false, msg)
      else (false, msg)

/-- Exceptions escaping the legacy executors: a
`subprocess.CalledProcessError` (with captured stderr and `str` rendering), or
any other exception with its `str` rendering — a `TimeoutExpired` from a
script run lands in the latter class, since the legacy handlers only ever
distinguish `CalledProcessError`. -/
inductive LegacyExc where
  | cpe (stderr excStr : PyStr)
  | other (excStr : PyStr)

/-- The `str(e)` rendering used by the legacy generic handlers. -/
def legacyExcStr : LegacyExc → PyStr
  | .cpe _ s => s
  | .other s => s

/-- Legacy `_execute_regular_python` (god_code_agent_ollama.py lines 282–309):
re-raises whatever `subprocess.run` raised. -/
def execute_regular_python_legacy : ExecAttempt → Except LegacyExc (Bool × PyStr)
  | .completed out => .ok (true, out)
  | .calledProcessError stderr s => .error (.cpe stderr s)
  | .timeoutExpired s => .error (.other s)
  | .otherError m => .error (.other m)

/-- Legacy `_execute_with_uvicorn` (god_code_agent_ollama.py lines 247–280):
a timeout counts as success; other failures are re-raised unchanged. -/
def execute_with_uvicorn_legacy : ExecAttempt → Except LegacyExc (Bool × PyStr)
  | .completed out => .ok (true, out)
  | .timeoutExpired _ =>
    .ok (true, lit "Uvicorn server running—manual test at http://localhost:8000")
  | .calledProcessError stderr s => .error (.cpe stderr s)
  | .otherError m => .error (.other m)

/-- One legacy execution of the artifact in the mode chosen by
`should_run_with_uvicorn`. -/
def run_mode_legacy (code : PyStr) (a : ExecAttempt) :
    Except LegacyExc (Bool × PyStr) :=
  if should_run_with_uvicorn code then execute_with_uvicorn_legacy a
  else execute_regular_python_legacy a

/-- Legacy `write_and_execute` (god_code_agent_ollama.py lines 311–358): on a
`CalledProcessError` whose stderr mentions `ModuleNotFoundError`, call
`auto_install_module` (its outcome is discarded) and re-run exactly once
unconditionally — also when nothing was installed — returning the second
outcome; a `CalledProcessError` without that marker returns
`(False, stderr)`, and any other exception `(False, str(e))`. -/
def write_and_execute_legacy (env : ExecEnv) (code _file_path : PyStr) :
    Bool × PyStr :=
  if !env.writeOk then (false, lit "File write error: " ++ env.writeErrMsg)
  else
    match run_mode_legacy code (env.attempts 0) with
    | .ok res => res
    | .error (.cpe stderr _) =>
      if containsSub (lit "ModuleNotFoundError") stderr then
        match run_mode_legacy code (env.attempts 1) with
        | .ok res => res
        | .error e2 => (false, legacyExcStr e2)
      else (false, stderr)
    | .error (.other m) => (false, m)

/-! ## CycleController: `recursive_build`
Identical control flow in both files apart from generation-failure handling:
the packaged `ollama_generate` raises (and `recursive_build` returns on
`OllamaAPIError`/`CodeGenerationError`), while the legacy one always returns
code, making the legacy `try/except` around it dead.  The mission and context
strings only feed the prompt of the generation request, which the per-cycle
oracle `gen` abstracts. -/

/-- Filesystem effects of one run that the claims observe: the controller
writing cycle `n`'s artifact `module_<n>.py` (the same content is re-written
unchanged by `write_and_execute` at the same path) and `destroyer_prune`
deleting it. -/
inductive Event where
  | write (cycle : Nat) (code : PyStr)
  | prune (cycle : Nat)
deriving DecidableEq

/-- The return path a `recursive_build` call took — the terminal states of
the controller's state machine. -/
inductive HaltReason where
  | maxCyclesReached
  | generationFailed
  | persistFailed
  | pruned
  | completedFinalCycle
deriving DecidableEq

/-- The outside world across the cycles of one run: what the model request of
cycle `n` does, whether cycle `n`'s artifact write succeeds, and what
`write_and_execute` returns for cycle `n` on given code (abstracting the
executor layer, whose own embedding is `write_and_execute_core`). -/
structure CycleEnv where
  gen : Nat → GenOutcome
  writeOk : Nat → Bool
  wae : Nat → PyStr → Bool × PyStr

/-- The tail of one cycle, shared verbatim by both `recursive_build`
versions: persist the generated code (an `IOError` ends the run), execute via
`write_and_execute`, review, and either continue with the already-computed
result `next` of cycle `n + 1`, report the final cycle complete, or prune
this cycle's artifact and stop. -/
def cycle_tail (env : CycleEnv) (maxCycles cycle : Nat) (code : PyStr)
    (next : List Event × HaltReason) : List Event × HaltReason :=
  if env.writeOk cycle then
    let res := env.wae cycle code
    if operator_review code && res.1 then
      if cycle < maxCycles then (Event.write cycle code :: next.1, next.2)
      else ([Event.write cycle code], .completedFinalCycle)
    else ([Event.write cycle code, Event.prune cycle], .pruned)
  else ([], .persistFailed)

/-- Worker for the packaged `recursive_build`: the `cycle > max_cycles` guard
is the source's; the fuel only makes the recursion structural, and the
wrapper's choice `maxCycles + 1 - cycle` keeps `fuel > 0` whenever
`cycle ≤ maxCycles`, so the `fuel = 0` branch is never taken. -/
def rb_core_go (env : CycleEnv) (maxCycles : Nat) :
    Nat → Nat → List Event × HaltReason
  | fuel, cycle =>
    if cycle > maxCycles then ([], .maxCyclesReached)
    else
      match fuel with
      | 0 => ([], .maxCyclesReached)
      | fuel' + 1 =>
        match ollama_generate_core (env.gen cycle) with
        | .error _ => ([], .generationFailed)
        | .ok code =>
          cycle_tail env maxCycles cycle code
            (rb_core_go env maxCycles fuel' (cycle + 1))

/-- Packaged `recursive_build` (god_code_agent.py lines 402–461), returning
the filesystem events of the run and the path on which it returned. -/
def recursive_build_core (env : CycleEnv) (maxCycles cycle : Nat) :
    List Event × HaltReason :=
  rb_core_go env maxCycles (maxCycles + 1 - cycle) cycle

/-- Worker for the legacy `recursive_build`: generation never fails (the
legacy `ollama_generate` swallows every error into a fallback script), so
there is no generation-failed path. -/
def rb_legacy_go (env : CycleEnv) (maxCycles : Nat) :
    Nat → Nat → List Event × HaltReason
  | fuel, cycle =>
    if cycle > maxCycles then ([], .maxCyclesReached)
    else
      match fuel with
      | 0 => ([], .maxCyclesReached)
      | fuel' + 1 =>
        cycle_tail env maxCycles cycle (ollama_generate_legacy (env.gen cycle))
          (rb_legacy_go env maxCycles fuel' (cycle + 1))

/-- Legacy `recursive_build` (god_code_agent_ollama.py lines 360–419). -/
def recursive_build_legacy (env : CycleEnv) (maxCycles cycle : Nat) :
    List Event × HaltReason :=
  rb_legacy_go env maxCycles (maxCycles + 1 - cycle) cycle

/-! ## The input class of the idempotence claim -/

/-- Raw model text that is a single clean function definition: printable ASCII
and newlines only (so the modelled string primitives agree exactly with
Python's), already stripped, at least 10 characters, not ending in a newline,
free of the removed bad tokens, its first line opening with `def `, and no
line containing a banned phrase case-insensitively. -/
def is_clean_function_def (s : PyStr) : Bool :=
  s.all (fun c => c = '\n' || (' ' ≤ c && c ≤ '~'))
    && pyStrip s == s
    && decide (10 ≤ s.length)
    && !(s.getLast? == some '\n')
    && bad_tokens.all (fun t => !containsSub t s)
    && (match pySplitlines s with
        | [] => false
        | l :: _ => (lit "def ").isPrefixOf l)
    && (pySplitlines s).all (fun l =>
        !(banned_phrases.any fun bp => containsSub (pyLower bp) (pyLower (pyStrip l))))

/-! # Theorems -/

/-! ## Two evaluations of the extractor, mirroring the repository's tests
`test_clean_generated_code` and `test_clean_generated_code_fallback` -/

/-- A fenced one-liner is unwrapped to the bare statement. -/
theorem clean_generated_code_fence_example :
    clean_generated_code (lit "```python\nprint('hello')\n```\n...")
      = lit "print('hello')" := by decide

/-- A fenced block holding only a banned phrase falls back. -/
theorem clean_generated_code_banned_phrase_example :
    clean_generated_code (lit "```\nThis script does something\n```")
      = fallback_script := by decide

/-! ## Supporting lemmas -/

/-- A list starting with a fixed prefix differs from any list that disagrees
with that prefix within its first `n` characters. -/
theorem ne_of_take_ne (pre post target : PyStr) (n : Nat) (hn : n ≤ pre.length)
    (hne : pre.take n ≠ target.take n) : pre ++ post ≠ target := by
  intro h
  exact hne (by rw [← List.take_append_of_le_length hn, h])

/-- The file-write violation string differs from every violation built by
appending to one of the validator's other message prefixes. -/
theorem fileWrite_not_mem_singleton (pre post : PyStr)
    (hn : 13 ≤ pre.length)
    (hne : pre.take 13 ≠ (lit "Disallowed file write operation").take 13) :
    lit "Disallowed file write operation" ∉ [pre ++ post] := by
  simp only [List.mem_singleton]
  exact fun h => ne_of_take_ne pre post _ 13 hn hne h.symm

/-- The file-write violation string is never produced by the per-node check:
the `elif` branch that would emit it is shadowed by the general `ast.Call`
branch. -/
theorem fileWrite_not_in_node_violations (allowed : List PyStr) (t : Ast) :
    lit "Disallowed file write operation" ∉ node_violations allowed t := by
  cases t with
  | Import names =>
    simp only [node_violations, List.mem_filterMap]
    rintro ⟨n, -, hn⟩
    by_cases hmem : dotHead n ∈ allowed
    · simp [hmem] at hn
    · have heq := Option.some.inj (by simpa [hmem] using hn)
      exact ne_of_take_ne (lit "Disallowed import: ") (dotHead n) _ 13
        (by decide) (by decide) heq
  | ImportFrom m =>
    simp only [node_violations]
    by_cases hmem : (match m with | some n => dotHead n | none => []) ∈ allowed
    · simp [hmem]
    · rw [if_neg hmem]
      exact fileWrite_not_mem_singleton (lit "Disallowed import from: ") _
        (by decide) (by decide)
  | Call f args kws =>
    cases f with
    | Name id =>
      simp only [node_violations]
      by_cases hid : (id = lit "exec" || id = lit "eval") = true
      · rw [if_pos hid]
        exact fileWrite_not_mem_singleton (lit "Disallowed function call: ") _
          (by decide) (by decide)
      · simp [hid]
    | Module body => simp [node_violations]
    | Import names => simp [node_violations]
    | ImportFrom m => simp [node_violations]
    | Call g a k => simp [node_violations]
    | Attribute v attr => simp [node_violations]
    | StrLit s => simp [node_violations]
    | Other cs => simp [node_violations]
  | Attribute v attr =>
    cases v with
    | Name id =>
      simp only [node_violations]
      by_cases h1 : (id = lit "os" &&
          (attr = lit "system" || attr = lit "popen" || attr = lit "spawn"
            || attr = lit "exec")) = true
      · rw [if_pos h1, List.append_assoc]
        exact fileWrite_not_mem_singleton (lit "Disallowed os.") _
          (by decide) (by decide)
      · by_cases h2 : id = lit "subprocess"
        · rw [if_neg h1, if_pos h2, List.append_assoc]
          exact fileWrite_not_mem_singleton (lit "Disallowed subprocess.") _
            (by decide) (by decide)
        · simp [h1, h2]
    | Module body => simp [node_violations]
    | Import names => simp [node_violations]
    | ImportFrom m => simp [node_violations]
    | Call g a k => simp [node_violations]
    | Attribute w at2 => simp [node_violations]
    | StrLit s => simp [node_violations]
    | Other cs => simp [node_violations]
  | Module body => simp [node_violations]
  | Name id => simp [node_violations]
  | StrLit s => simp [node_violations]
  | Other cs => simp [node_violations]

/-- The file-write violation string is never produced by the walk, whatever
the fuel and worklist. -/
theorem fileWrite_not_in_walkGo (allowed : List PyStr) (fuel : Nat) :
    ∀ l, lit "Disallowed file write operation" ∉ walkGo allowed fuel l := by
  induction fuel with
  | zero => intro l; simp [walkGo]
  | succ f ih =>
    intro l
    cases l with
    | nil => simp [walkGo]
    | cons t rest =>
      simp only [walkGo, List.mem_append]
      rintro (h | h)
      · exact fileWrite_not_in_node_violations allowed t h
      · exact ih _ h

/-- Node counts add up over list concatenation. -/
theorem astCountList_append (l1 l2 : List Ast) :
    astCountList (l1 ++ l2) = astCountList l1 + astCountList l2 := by
  induction l1 with
  | nil => simp [astCountList]
  | cons t ts ih => simp [astCountList, ih]; omega

/-- Every tree has at least one node. -/
theorem astCount_pos (t : Ast) : 1 ≤ astCount t := by
  cases t <;> simp [astCount] <;> omega

/-- A tree is one node plus its children. -/
theorem astCount_eq_children (t : Ast) :
    astCount t = 1 + astCountList (astChildren t) := by
  cases t <;> simp [astCount, astChildren, astCountList, astCountList_append]
    <;> omega

/-- Any fuel of at least the total node count of the worklist gives the walk's
final answer: the fuel in `collect_violations` is enough, and the walk is
fuel-independent beyond it. -/
theorem walkGo_fuel_sufficient (allowed : List PyStr) :
    ∀ (fuel : Nat) (l : List Ast), astCountList l ≤ fuel →
      walkGo allowed fuel l = walkGo allowed (astCountList l) l := by
  intro fuel
  induction fuel with
  | zero =>
    intro l hl
    cases l with
    | nil => rfl
    | cons t rest =>
      exfalso
      have := astCount_pos t
      simp [astCountList] at hl
      omega
  | succ f ih =>
    intro l hl
    cases l with
    | nil => simp [walkGo, astCountList]
    | cons t rest =>
      have hcount : astCountList (t :: rest)
          = astCountList (rest ++ astChildren t) + 1 := by
        simp only [astCountList, astCountList_append, astCount_eq_children t]
        omega
      rw [hcount]
      simp only [walkGo]
      have hle : astCountList (rest ++ astChildren t) ≤ f := by omega
      rw [ih _ hle]

/-! ## C5: the validator is total and records parse failures -/

/-- C5: for every parse failure of the submitted source, `validate_code`
returns (the embedding is a total function: the `except SyntaxError` handler
converts the failure into a violation instead of propagating it), and the
returned violation list is non-empty — the parse failure itself is the
recorded violation. -/
theorem claim5_validate_total_on_parse_failure (sb : CodeSandbox) (msg : PyStr) :
    validate_code sb (.syntaxError msg) = [lit "Syntax error: " ++ msg]
      ∧ validate_code sb (.syntaxError msg) ≠ [] :=
  ⟨rfl, by simp [validate_code]⟩

/-! ## C6: violations short-circuit execution -/

/-- C6: whenever `validate_code` reports at least one violation,
`execute_code` fails with the violations joined into the fixed message, and
the result is independent of anything the execution subprocess could have
done — no process is spawned for that source. -/
theorem claim6_violations_short_circuit (sb : CodeSandbox) (p : ParseResult)
    (proc proc' : ProcResult) (h : validate_code sb p ≠ []) :
    execute_code sb p proc = (false, violations_message (validate_code sb p))
      ∧ execute_code sb p proc = execute_code sb p proc' := by
  obtain ⟨a, t, hl⟩ : ∃ a t, validate_code sb p = a :: t := by
    cases hv : validate_code sb p with
    | nil => exact absurd hv h
    | cons a t => exact ⟨a, t, rfl⟩
  exact ⟨by simp [execute_code, hl], by simp [execute_code, hl]⟩

/-- Witness for C6 at a concrete disallowed import. -/
theorem claim6_witness :
    validate_code ⟨[], 30⟩ (.parsed (.Module [.Import [lit "os"]])) ≠ []
      ∧ execute_code ⟨[], 30⟩ (.parsed (.Module [.Import [lit "os"]]))
          (.exited 0 (lit "out") (lit "err"))
        = (false, violations_message
            (validate_code ⟨[], 30⟩ (.parsed (.Module [.Import [lit "os"]])))) := by
  have h : validate_code (⟨[], 30⟩ : CodeSandbox)
      (.parsed (.Module [.Import [lit "os"]])) ≠ [] := by decide
  exact ⟨h, (claim6_violations_short_circuit _ _
    (.exited 0 (lit "out") (lit "err")) .timedOut h).1⟩

/-! ## C4: outcome classification of a script run -/

/-- C4: on a validated source, `execute_code` returns `(True, stdout)` when
the subprocess exits 0, `(False, stderr)` when it exits non-zero, and the
distinct fixed timeout message on a timeout; a timeout never yields
`(True, _)`, validated or not. -/
theorem claim4_executor_outcome_classification (sb : CodeSandbox)
    (p : ParseResult) (rc : Int) (out err : PyStr)
    (hv : validate_code sb p = []) :
    execute_code sb p (.exited 0 out err) = (true, out)
      ∧ (rc ≠ 0 → execute_code sb p (.exited rc out err) = (false, err))
      ∧ execute_code sb p .timedOut
          = (false, lit "Execution timed out after "
              ++ lit (toString sb.max_execution_time) ++ lit " seconds")
      ∧ ∀ p' : ParseResult, (execute_code sb p' .timedOut).1 = false := by
  refine ⟨by simp [execute_code, hv], fun hrc => by simp [execute_code, hv, hrc],
    by simp [execute_code, hv], fun p' => ?_⟩
  cases hv' : validate_code sb p' with
  | nil => simp [execute_code, hv']
  | cons a t => simp [execute_code, hv']

/-- Witness for C4 at a concrete empty module and outcomes. -/
theorem claim4_witness :
    validate_code ⟨[lit "math"], 30⟩ (.parsed (.Module [])) = []
      ∧ execute_code ⟨[lit "math"], 30⟩ (.parsed (.Module []))
          (.exited 0 (lit "ok") (lit "bad")) = (true, lit "ok")
      ∧ execute_code ⟨[lit "math"], 30⟩ (.parsed (.Module []))
          (.exited 2 (lit "ok") (lit "bad")) = (false, lit "bad")
      ∧ execute_code ⟨[lit "math"], 30⟩ (.parsed (.Module [])) .timedOut
          = (false, lit "Execution timed out after 30 seconds") := by
  have hv : validate_code (⟨[lit "math"], 30⟩ : CodeSandbox)
      (.parsed (.Module [])) = [] := by decide
  obtain ⟨h1, h2, h3, -⟩ := claim4_executor_outcome_classification
    (⟨[lit "math"], 30⟩ : CodeSandbox) (.parsed (.Module [])) 2
    (lit "ok") (lit "bad") hv
  exact ⟨hv, h1, h2 (by decide), h3.trans (by decide)⟩

/-! ## C10: the file-write check never fires -/

/-- C10: `validate_code` never reports the file-write violation — in
particular not for `open` calls whose write mode is passed as a keyword
argument or as a non-literal second positional argument, as the two concrete
conjuncts show for `open("f.txt", mode="w")` and `open("f.txt", m)`.  (The
check could only ever fire for a second positional string literal, and in
fact never fires at all, because its `elif` branch is shadowed by the general
`ast.Call` branch.) -/
theorem claim10_no_file_write_violation :
    (∀ (sb : CodeSandbox) (p : ParseResult),
      lit "Disallowed file write operation" ∉ validate_code sb p)
      ∧ validate_code ⟨[], 30⟩ (.parsed (.Module
          [.Other [.Call (.Name (lit "open")) [.StrLit (lit "f.txt")]
            [.StrLit (lit "w")]]])) = []
      ∧ validate_code ⟨[], 30⟩ (.parsed (.Module
          [.Other [.Call (.Name (lit "open"))
            [.StrLit (lit "f.txt"), .Name (lit "m")] []]])) = [] := by
  refine ⟨fun sb p => ?_, by decide, by decide⟩
  cases p with
  | syntaxError msg =>
    simp only [validate_code]
    exact fileWrite_not_mem_singleton (lit "Syntax error: ") msg
      (by decide) (by decide)
  | parsed tree => exact fileWrite_not_in_walkGo _ _ _

/-! ## C8: the dependency resolver -/

/-- The installation loop attempts each name exactly once in order and keeps
exactly the names whose pip subprocess succeeded; one failure does not stop
the loop. -/
theorem install_loop_spec (pipOk : PyStr → Bool) (ms : List PyStr) :
    (install_loop pipOk ms).attempts = ms
      ∧ (install_loop pipOk ms).installed = ms.filter pipOk := by
  induction ms with
  | nil => exact ⟨rfl, rfl⟩
  | cons m rest ih =>
    simp only [install_loop, List.filter_cons]
    refine ⟨by simp [ih.1], ?_⟩
    by_cases h : pipOk m
    · simp [h, ih.2]
    · simp [h, ih.2]

/-- C8: `auto_install_module` attempts exactly one installation per name
matched by the `No module named` pattern (so none at all when the pattern is
absent) and returns exactly the names whose install subprocess succeeded; an
individual failure does not abort the remaining names, as the last conjunct
shows concretely with an install oracle that fails on `foo` but succeeds on
the later `bar`. -/
theorem claim8_resolver_attempts_and_successes :
    (∀ (pipOk : PyStr → Bool) (err : PyStr),
      (auto_install_module pipOk err).attempts = findModuleMatches err
        ∧ (auto_install_module pipOk err).installed
            = (findModuleMatches err).filter pipOk)
      ∧ findModuleMatches (lit "ModuleNotFoundError: No module named 'foo'")
          = [lit "foo"]
      ∧ findModuleMatches (lit "Traceback: everything else failed") = []
      ∧ (auto_install_module (fun m => !(m == lit "foo"))
          (lit "No module named 'foo'; later also No module named 'bar'")).installed
          = [lit "bar"] := by
  refine ⟨fun pipOk err => install_loop_spec pipOk (findModuleMatches err),
    ?_, ?_, ?_⟩
  · decide
  · decide
  · decide

/-! ## Lemmas towards C9: when the extractor is the identity -/

/-- Replacing a pattern that does not occur anywhere leaves the string
unchanged, whatever the fuel. -/
theorem pyReplaceGo_of_not_contains (pat rep : PyStr) :
    ∀ (fuel : Nat) (l : PyStr), containsSub pat l = false →
      pyReplaceGo pat rep fuel l = l := by
  intro fuel
  induction fuel with
  | zero => intro l _; rfl
  | succ f ih =>
    intro l h
    cases l with
    | nil => rfl
    | cons c rest =>
      simp only [containsSub, Bool.or_eq_false_iff] at h
      simp [pyReplaceGo, h.1, ih rest h.2]

/-- `str.replace` with an absent pattern is the identity. -/
theorem pyReplace_of_not_contains (pat rep l : PyStr)
    (h : containsSub pat l = false) : pyReplace pat rep l = l :=
  pyReplaceGo_of_not_contains pat rep l.length l h

/-- A fold of replacements over tokens none of which occur is the identity. -/
theorem foldl_replace_id :
    ∀ (ts : List PyStr) (s : PyStr),
      ts.all (fun t => !containsSub t s) = true →
      ts.foldl (fun acc t => pyReplace t [] acc) s = s := by
  intro ts
  induction ts with
  | nil => intro s _; rfl
  | cons t rest ih =>
    intro s h
    simp only [List.all_cons, Bool.and_eq_true, Bool.not_eq_true'] at h
    have h1 : pyReplace t [] s = s := pyReplace_of_not_contains t [] s h.1
    simp only [List.foldl_cons, h1]
    exact ih s (by simpa using h.2)

/-- The bad-token removal is the identity on strings free of all bad tokens. -/
theorem strip_bad_tokens_id (s : PyStr)
    (h : bad_tokens.all (fun t => !containsSub t s) = true) :
    strip_bad_tokens s = s :=
  foldl_replace_id bad_tokens s h

/-- The split of a non-empty text (or with a pending line) is non-empty. -/
theorem splitlinesGo_ne_nil :
    ∀ (l cur : PyStr), ¬(l = [] ∧ cur = []) → splitlinesGo cur l ≠ [] := by
  intro l
  induction l with
  | nil =>
    intro cur h
    have hc : cur ≠ [] := fun hc => h ⟨rfl, hc⟩
    rw [splitlinesGo.eq_def]
    simp [hc]
  | cons c rest ih =>
    intro cur _
    rw [splitlinesGo.eq_def]
    by_cases hc : c = '\r'
    · cases rest with
      | nil => simp [hc]
      | cons c2 r2 =>
        by_cases h2 : c2 = '\n' <;> simp [hc, h2]
    · by_cases hb : isLineBreak c
      · simp [hc, hb]
      · simp only [hc, hb, if_neg, if_false, Bool.false_eq_true]
        exact ih (c :: cur) (by simp)

/-- A character of the printable-or-newline class that is a line break is a
newline. -/
theorem break_eq_newline (c : Char)
    (hc : (c = '\n' || (' ' ≤ c && c ≤ '~')) = true)
    (hb : isLineBreak c = true) : c = '\n' := by
  simp only [Bool.or_eq_true, decide_eq_true_eq, Bool.and_eq_true] at hc
  simp only [isLineBreak, Bool.or_eq_true, decide_eq_true_eq] at hb
  rcases hb with ((((((((h | h) | h) | h) | h) | h) | h) | h) | h) | h <;>
    subst h <;>
    first
      | rfl
      | exact absurd hc (by decide)

/-- Splitting on lines and joining with newlines is the identity on texts
whose only line-break character is `'\n'` and which do not end in one. -/
theorem splitlinesGo_join :
    ∀ (l cur : PyStr),
      (∀ c ∈ l, isLineBreak c = true → c = '\n') →
      l.getLast? ≠ some '\n' →
      pyJoin (lit "\n") (splitlinesGo cur l) = cur.reverse ++ l := by
  intro l
  induction l with
  | nil =>
    intro cur _ _
    by_cases hc : cur = []
    · simp [splitlinesGo, hc, pyJoin]
    · simp [splitlinesGo, hc, pyJoin]
  | cons c rest ih =>
    intro cur hchars hlast
    by_cases hb : isLineBreak c
    · have hcn : c = '\n' := hchars c (by simp) hb
      subst hcn
      have hrest : rest ≠ [] := by
        rintro rfl
        exact hlast rfl
      obtain ⟨r0, rrest, hr⟩ : ∃ r0 rrest, rest = r0 :: rrest := by
        cases rest with
        | nil => exact absurd rfl hrest
        | cons r0 rrest => exact ⟨r0, rrest, rfl⟩
      have hsplit_ne : splitlinesGo [] rest ≠ [] :=
        splitlinesGo_ne_nil rest [] (fun hx => hrest hx.1)
      have hstep : splitlinesGo cur ('\n' :: rest)
          = cur.reverse :: splitlinesGo [] rest := by
        rw [splitlinesGo.eq_def]
        simp [isLineBreak]
      rw [hstep]
      obtain ⟨s0, srest, hs⟩ : ∃ s0 srest, splitlinesGo [] rest = s0 :: srest := by
        cases hsp : splitlinesGo [] rest with
        | nil => exact absurd hsp hsplit_ne
        | cons s0 srest => exact ⟨s0, srest, rfl⟩
      have hihyp : pyJoin (lit "\n") (splitlinesGo [] rest) = rest := by
        have h1 : ∀ c ∈ rest, isLineBreak c = true → c = '\n' := by
          intro d hd hbd
          exact hchars d (List.mem_cons_of_mem _ hd) hbd
        have h2 : rest.getLast? ≠ some '\n' := by
          rw [hr] at hlast ⊢
          rwa [List.getLast?_cons_cons] at hlast
        simpa using ih [] h1 h2
      rw [hs] at hihyp ⊢
      rw [pyJoin]
      rw [hihyp]
      simp [lit]
    · have hcr : c ≠ '\r' := by
        rintro rfl
        exact hb (by decide)
      have hstep : splitlinesGo cur (c :: rest) = splitlinesGo (c :: cur) rest := by
        rw [splitlinesGo.eq_def]
        simp [hcr, hb]
      rw [hstep]
      have h1 : ∀ d ∈ rest, isLineBreak d = true → d = '\n' := by
        intro d hd hbd
        exact hchars d (List.mem_cons_of_mem _ hd) hbd
      have h2 : rest.getLast? ≠ some '\n' := by
        cases rest with
        | nil => simp
        | cons r0 rrest =>
          rwa [List.getLast?_cons_cons] at hlast
      rw [ih (c :: cur) h1 h2]
      simp

/-- The prefix test of the line filter accepts every line: the allow-list ends
with the empty string, which is a prefix of everything. -/
theorem startsWithAny_allowed (l : PyStr) :
    startsWithAny l allowed_starts = true := by
  apply List.any_eq_true.mpr
  refine ⟨lit "", by decide, ?_⟩
  cases l with
  | nil => rfl
  | cons a as => rfl

/-! ## C9: the extractor is the identity on clean function definitions -/

/-- C9: on raw model text that is a single clean function definition (in the
sense of `is_clean_function_def`: printable text, stripped, long enough, free
of bad tokens and banned phrases, first line a `def `), `_clean_generated_code`
returns the text unchanged, and is therefore idempotent on such inputs. -/
theorem claim9_extract_identity_idempotent (s : PyStr)
    (h : is_clean_function_def s = true) :
    clean_generated_code s = s
      ∧ clean_generated_code (clean_generated_code s) = clean_generated_code s := by
  unfold is_clean_function_def at h
  simp only [Bool.and_eq_true] at h
  obtain ⟨⟨⟨⟨⟨⟨h1, h2⟩, h3⟩, h4⟩, h5⟩, -⟩, h7⟩ := h
  have hstrip : pyStrip s = s := eq_of_beq h2
  have hlen : 10 ≤ s.length := of_decide_eq_true h3
  have hne : s ≠ [] := by
    intro hs
    rw [hs] at hlen
    simp at hlen
  have hlast : s.getLast? ≠ some '\n' := by
    intro hc
    rw [hc] at h4
    simp at h4
  have hstb : strip_bad_tokens s = s := strip_bad_tokens_id s h5
  have hchars : ∀ c ∈ s, isLineBreak c = true → c = '\n' := by
    intro c hcm hb
    exact break_eq_newline c (by simpa using List.all_eq_true.mp h1 c hcm) hb
  have hjoin : pyJoin (lit "\n") (pySplitlines s) = s := by
    have := splitlinesGo_join s [] hchars hlast
    simpa [pySplitlines] using this
  have hfilter : (pySplitlines s).filter line_is_selected = pySplitlines s := by
    apply List.filter_eq_self.mpr
    intro line hmem
    have hb := List.all_eq_true.mp h7 line hmem
    simp only [line_is_selected, startsWithAny_allowed, Bool.true_or,
      Bool.true_and]
    simpa using hb
  have hclean : clean_generated_code s = s := by
    unfold clean_generated_code
    simp only [hstb, hstrip, hfilter, hjoin]
    rw [if_neg]
    simp only [Bool.or_eq_true, decide_eq_true_eq, not_or]
    constructor
    · intro hE
      exact hne (List.isEmpty_iff.mp hE)
    · omega
  refine ⟨hclean, ?_⟩
  rw [hclean]
  exact hclean

/-- Witness for C9 at a concrete two-line function definition. -/
theorem claim9_witness :
    is_clean_function_def (lit "def add(a, b):\n    return a + b") = true
      ∧ clean_generated_code (lit "def add(a, b):\n    return a + b")
          = lit "def add(a, b):\n    return a + b" := by
  refine ⟨by decide, ?_⟩
  exact (claim9_extract_identity_idempotent _ (by decide)).1

/-! ## C7: the line filter does not actually filter prose -/

/-- C7 (a bug in the code): the prose line
`"This is just text without any code blocks."` — the very input of the
repository's own test `test_clean_generated_code_no_code_blocks`, which
expects the fallback script — survives extraction unchanged, because the
final element of `allowed_starts` is the empty string and
`str.startswith(("...", ""))` is true for every line.  The line starts with
none of the non-empty (code-like) allowed prefixes, is not blank, not
numeric, and does not start with a quote, so under the specified filter it
should have been dropped and the fallback returned. -/
theorem claim7_prose_line_survives_extraction :
    clean_generated_code (lit "This is just text without any code blocks.")
      = lit "This is just text without any code blocks."
      ∧ clean_generated_code (lit "This is just text without any code blocks.")
        ≠ fallback_script
      ∧ startsWithAny (lit "This is just text without any code blocks.")
          (allowed_starts.filter (fun p => !p.isEmpty)) = false
      ∧ pyIsdigit (lit "This is just text without any code blocks.") = false := by
  refine ⟨by decide, by decide, by decide, by decide⟩

/-! ## C2: the single dependency-install retry -/

/-- C2: in the packaged executor, after a first failed run whose message
carries the `ModuleNotFoundError` marker, the artifact is re-run exactly once
if and only if the resolver newly installed at least one dependency, and that
second outcome — success or failure — is final; with nothing installed (or
without the marker) the original failure is returned.  The last conjunct
bounds the retries: the result depends only on the first two subprocess
invocations, so a third run can never happen. -/
theorem claim2_missing_dependency_single_retry (env : ExecEnv)
    (code file_path msg : PyStr) (hw : env.writeOk = true)
    (hfail : run_mode_core code file_path (env.attempts 0) = .error msg) :
    (containsSub (lit "ModuleNotFoundError") msg = true →
      (auto_install_module env.pipOk msg).installed ≠ [] →
        write_and_execute_core env code file_path
          = (match run_mode_core code file_path (env.attempts 1) with
             | .ok res => res
             | .error m2 => (false, m2)))
      ∧ (containsSub (lit "ModuleNotFoundError") msg = true →
          (auto_install_module env.pipOk msg).installed = [] →
            write_and_execute_core env code file_path = (false, msg))
      ∧ (containsSub (lit "ModuleNotFoundError") msg = false →
          write_and_execute_core env code file_path = (false, msg))
      ∧ (∀ att : Nat → ExecAttempt, att 0 = env.attempts 0 →
          att 1 = env.attempts 1 →
          write_and_execute_core { env with attempts := att } code file_path
            = write_and_execute_core env code file_path) := by
  refine ⟨fun hm hi => ?_, fun hm hi => ?_, fun hm => ?_, fun att h0 h1 => ?_⟩
  · obtain ⟨a, t, hl⟩ : ∃ a t, (auto_install_module env.pipOk msg).installed
        = a :: t := by
      cases hx : (auto_install_module env.pipOk msg).installed with
      | nil => exact absurd hx hi
      | cons a t => exact ⟨a, t, rfl⟩
    simp [write_and_execute_core, hw, hfail, hm, hl]
  · simp [write_and_execute_core, hw, hfail, hm, hi]
  · simp [write_and_execute_core, hw, hfail, hm]
  · simp only [write_and_execute_core, h0, h1, hw]

/-- Witness for C2: first run fails with a resolvable missing module, the
resolver installs it, and the single re-run's success is returned as final. -/
theorem claim2_witness :
    write_and_execute_core
      ⟨true, [],
        fun n => if n = 0 then
          ExecAttempt.calledProcessError
            (lit "ModuleNotFoundError: No module named 'foo'") (lit "exc")
        else ExecAttempt.completed (lit "done"),
        fun _ => true⟩
      (lit "print('x')") (lit "m.py") = (true, lit "done") := by
  have h := (claim2_missing_dependency_single_retry
    ⟨true, [],
      fun n => if n = 0 then
        ExecAttempt.calledProcessError
          (lit "ModuleNotFoundError: No module named 'foo'") (lit "exc")
      else ExecAttempt.completed (lit "done"),
      fun _ => true⟩
    (lit "print('x')") (lit "m.py")
    (lit "Python execution failed: ModuleNotFoundError: No module named 'foo'")
    rfl rfl).1 (by decide) (by decide)
  exact h.trans (by decide)

/-- Counterexample for C2 as stated: the legacy executor re-runs although no
dependency was installed (the failure text matches no `No module named`
pattern, so the resolver attempts nothing), and returns the retry's success
instead of the original failure. -/
theorem claim2_counterexample :
    write_and_execute_legacy
      ⟨true, [],
        fun n => if n = 0 then
          ExecAttempt.calledProcessError (lit "ModuleNotFoundError") (lit "exc")
        else ExecAttempt.completed (lit "retried"),
        fun _ => true⟩
      (lit "print('x')") (lit "m.py") = (true, lit "retried")
      ∧ findModuleMatches (lit "ModuleNotFoundError") = []
      ∧ ((true, lit "retried") : Bool × PyStr)
          ≠ (false, lit "ModuleNotFoundError") := by
  refine ⟨by decide, by decide, by decide⟩

/-! ## C1 and C3: the controller's halting behaviour -/

/-- One unfolding of the packaged controller's worker at positive fuel. -/
theorem rb_core_go_succ (env : CycleEnv) (maxCycles fuel cycle : Nat)
    (h : cycle ≤ maxCycles) :
    rb_core_go env maxCycles (fuel + 1) cycle
      = match ollama_generate_core (env.gen cycle) with
        | .error _ => ([], .generationFailed)
        | .ok code =>
          cycle_tail env maxCycles cycle code
            (rb_core_go env maxCycles fuel (cycle + 1)) := by
  have hstep : rb_core_go env maxCycles (fuel + 1) cycle
      = if cycle > maxCycles then ([], .maxCyclesReached)
        else match ollama_generate_core (env.gen cycle) with
          | .error _ => ([], .generationFailed)
          | .ok code =>
            cycle_tail env maxCycles cycle code
              (rb_core_go env maxCycles fuel (cycle + 1)) := rfl
  rw [hstep, if_neg (by omega : ¬ cycle > maxCycles)]

/-- One unfolding of the legacy controller's worker at positive fuel. -/
theorem rb_legacy_go_succ (env : CycleEnv) (maxCycles fuel cycle : Nat)
    (h : cycle ≤ maxCycles) :
    rb_legacy_go env maxCycles (fuel + 1) cycle
      = cycle_tail env maxCycles cycle (ollama_generate_legacy (env.gen cycle))
          (rb_legacy_go env maxCycles fuel (cycle + 1)) := by
  have hstep : rb_legacy_go env maxCycles (fuel + 1) cycle
      = if cycle > maxCycles then ([], .maxCyclesReached)
        else cycle_tail env maxCycles cycle
          (ollama_generate_legacy (env.gen cycle))
          (rb_legacy_go env maxCycles fuel (cycle + 1)) := rfl
  rw [hstep, if_neg (by omega : ¬ cycle > maxCycles)]

/-- C1 (amended): when the model request of a live cycle fails, the packaged
controller halts the run with the generation-failed outcome and produces no
filesystem event at all — in particular no artifact write for that cycle; the
legacy controller instead receives a fallback placeholder script from its
generation layer and (if the artifact write succeeds) writes it as the
cycle's artifact, its first filesystem event. -/
theorem claim1_generation_failure (env : CycleEnv) (maxCycles cycle : Nat)
    (h1 : cycle ≤ maxCycles)
    (hfail : env.gen cycle = .transportError
      ∨ env.gen cycle = .malformedResponse
      ∨ env.gen cycle = .unexpectedError) :
    recursive_build_core env maxCycles cycle = ([], .generationFailed)
      ∧ (env.writeOk cycle = true →
          (recursive_build_legacy env maxCycles cycle).1.head?
            = some (Event.write cycle (ollama_generate_legacy (env.gen cycle)))) := by
  constructor
  · unfold recursive_build_core
    rw [show maxCycles + 1 - cycle = (maxCycles - cycle) + 1 by omega]
    rw [rb_core_go_succ env maxCycles _ cycle h1]
    rcases hfail with h | h | h <;> rw [h] <;> rfl
  · intro hw
    unfold recursive_build_legacy
    rw [show maxCycles + 1 - cycle = (maxCycles - cycle) + 1 by omega]
    rw [rb_legacy_go_succ env maxCycles _ cycle h1]
    simp only [cycle_tail, hw, if_true]
    split
    · split
      · rfl
      · rfl
    · rfl

/-- Witness for C1 at a concrete transport failure in cycle 1 of 2. -/
theorem claim1_witness :
    recursive_build_core
      ⟨fun _ => .transportError, fun _ => true, fun _ _ => (true, lit "out")⟩ 2 1
      = ([], .generationFailed)
      ∧ (recursive_build_legacy
          ⟨fun _ => .transportError, fun _ => true,
            fun _ _ => (true, lit "out")⟩ 2 1).1.head?
        = some (Event.write 1
            (lit "print('Hello world from GODCodeAgent - API Error')")) := by
  obtain ⟨ha, hb⟩ := claim1_generation_failure
    ⟨fun _ => .transportError, fun _ => true, fun _ _ => (true, lit "out")⟩ 2 1
    (by omega) (Or.inl rfl)
  exact ⟨ha, hb rfl⟩

/-- Counterexample for C1 as stated: on a transport error the legacy run
writes the fallback placeholder as the cycle's artifact, passes its own
review, and halts as a completed final cycle — not as a generation failure,
and not without an artifact. -/
theorem claim1_counterexample :
    recursive_build_legacy
      ⟨fun _ => .transportError, fun _ => true, fun _ _ => (true, lit "out")⟩ 1 1
      = ([Event.write 1
            (lit "print('Hello world from GODCodeAgent - API Error')")],
          .completedFinalCycle)
      ∧ HaltReason.completedFinalCycle ≠ .generationFailed
      ∧ ([Event.write 1
            (lit "print('Hello world from GODCodeAgent - API Error')")]
          : List Event) ≠ [] := by
  refine ⟨by decide, by decide, by decide⟩

/-- C3: when a live cycle's generation succeeds and its artifact is written
but the review heuristic rejects the generated text or the execution was not
a success, both controllers delete that cycle's artifact and the whole run
halts as pruned: the run's remaining trace is exactly the write and the prune
of this cycle — no event of any later cycle, and no second attempt at this
one. -/
theorem claim3_reject_prunes_and_halts (env : CycleEnv) (maxCycles cycle : Nat)
    (raw : PyStr) (h1 : cycle ≤ maxCycles) (hgen : env.gen cycle = .ok raw)
    (hw : env.writeOk cycle = true)
    (hrej : (operator_review (clean_generated_code raw)
        && (env.wae cycle (clean_generated_code raw)).1) = false) :
    recursive_build_core env maxCycles cycle
      = ([Event.write cycle (clean_generated_code raw), Event.prune cycle],
          .pruned)
      ∧ recursive_build_legacy env maxCycles cycle
        = ([Event.write cycle (clean_generated_code raw), Event.prune cycle],
            .pruned) := by
  constructor
  · unfold recursive_build_core
    rw [show maxCycles + 1 - cycle = (maxCycles - cycle) + 1 by omega]
    rw [rb_core_go_succ env maxCycles _ cycle h1, hgen]
    simp only [ollama_generate_core, cycle_tail, hw, if_true, hrej,
      Bool.false_eq_true, if_false]
  · unfold recursive_build_legacy
    rw [show maxCycles + 1 - cycle = (maxCycles - cycle) + 1 by omega]
    rw [rb_legacy_go_succ env maxCycles _ cycle h1, hgen]
    simp only [ollama_generate_legacy, cycle_tail, hw, if_true, hrej,
      Bool.false_eq_true, if_false]

/-- Witness for C3: generated code with no review keyword is pruned in cycle
1 of 3 and the run halts, in both controllers. -/
theorem claim3_witness :
    recursive_build_core
      ⟨fun _ => .ok (lit "import os\nimport sys"), fun _ => true,
        fun _ _ => (true, lit "out")⟩ 3 1
      = ([Event.write 1 (lit "import os\nimport sys"), Event.prune 1], .pruned)
      ∧ recursive_build_legacy
        ⟨fun _ => .ok (lit "import os\nimport sys"), fun _ => true,
          fun _ _ => (true, lit "out")⟩ 3 1
        = ([Event.write 1 (lit "import os\nimport sys"), Event.prune 1],
            .pruned) := by
  obtain ⟨ha, hb⟩ := claim3_reject_prunes_and_halts
    ⟨fun _ => .ok (lit "import os\nimport sys"), fun _ => true,
      fun _ _ => (true, lit "out")⟩ 3 1 (lit "import os\nimport sys")
    (by omega) rfl rfl (by decide)
  exact ⟨ha.trans (by decide), hb.trans (by decide)⟩

end ApexAI
